import Mathlib

/-
  Shallow embedding of the Sentinel Index Vault contract
  (src/contracts/assembly/contracts/main.ts) — an AssemblyScript smart
  contract on the Massa chain.

  Modelling conventions:
  * AssemblyScript `u64` values are `Nat` together with explicit wrapping:
    every source-level `u64` addition/multiplication/subtraction that can
    overflow is modelled with `% 2^64` (`u64`, `u64sub`).
  * Persistent `Storage` keys relevant to the claims become fields of
    `VaultState`.  Keys whose mere *presence* is tested by the source
    (`Storage.has`) are modelled as `Option String`, so that `Storage.set
    key "false"` (which leaves the key present) is distinguishable from
    `Storage.del key`.
  * External collaborators (token contracts reporting balances, the DEX
    router reporting swap outputs, the host reporting the native-coin
    balance and deferred-call quotes) are inputs: each entry point takes an
    environment record carrying the values those external calls return.
  * `assert(cond, msg)` aborting the whole call is modelled by returning
    `Except.error msg` (the caller's state is then unchanged — full
    rollback); a normal return is `Except.ok`.
  * Emitted events are modelled as a list of tags (one tag per
    `generateEvent` call site), sufficient to state the claims about which
    events a call emits.
-/

namespace SIV

/-- Modulus of AssemblyScript `u64` arithmetic. -/
def U64MOD : Nat := 18446744073709551616

/-- Wrapping reduction of a `u64` expression, as performed implicitly by
every AssemblyScript `u64` addition and multiplication. -/
def u64 (n : Nat) : Nat := n % U64MOD

/-- Wrapping `u64` subtraction `a - b` (two's-complement wrap-around), for
`b < 2^64`. -/
def u64sub (a b : Nat) : Nat := (a + (U64MOD - b)) % U64MOD

/-- main.ts line 75: `MIN_GAS_BANK_BALANCE = 2_000_000_000` nanoMAS. -/
def MIN_GAS_BANK_BALANCE : Nat := 2000000000

/-- main.ts line 76: `LOW_GAS_WARNING = 5_000_000_000` nanoMAS. -/
def LOW_GAS_WARNING : Nat := 5000000000

/-- main.ts line 91: `STORAGE_FEE_PER_SWAP = 10_000_000` nanoMAS. -/
def STORAGE_FEE_PER_SWAP : Nat := 10000000

/-- Association-list lookup for the per-holder share records
(`Storage.get(userSharesKey addr)`), `none` when the key is absent. -/
def lookupShares (m : List (String × Nat)) (k : String) : Option Nat :=
  match m with
  | [] => none
  | (a, v) :: t => if a = k then some v else lookupShares t k

/-- Association-list update for the per-holder share records
(`Storage.set(userSharesKey addr, v)`). -/
def setShares (m : List (String × Nat)) (k : String) (v : Nat) :
    List (String × Nat) :=
  match m with
  | [] => [(k, v)]
  | (a, w) :: t => if a = k then (k, v) :: t else (a, w) :: setShares t k v

/-- Association-list deletion (`Storage.del(userSharesKey addr)`). -/
def delShares (m : List (String × Nat)) (k : String) :
    List (String × Nat) :=
  match m with
  | [] => []
  | (a, w) :: t => if a = k then t else (a, w) :: delShares t k

/-- Mathematical sum of all per-holder share balances. -/
def sharesSum (m : List (String × Nat)) : Nat :=
  match m with
  | [] => 0
  | (_, v) :: t => v + sharesSum t

/-- The persisted contract state relevant to the claims.  `Option String`
fields model storage keys whose presence is tested with `Storage.has`. -/
structure VaultState where
  owner : String
  paused : Option String
  guardArmed : Option String
  autonomousEnabled : Option String
  autonScheduled : Option String
  reentrancyGuard : Option String
  deferredCallActive : Option String
  totalShares : Nat
  shares : List (String × Nat)
  lastRebalance : Nat
  epochSeconds : Nat
  minDeposit : Nat
  maxDriftBps : Nat
  target0 : Nat
  target1 : Nat
  target2 : Nat
deriving DecidableEq

/-- State written by the constructor (main.ts lines 103-170): zero shares,
all boolean-ish keys absent, `last_rebalance` set to the deployment
timestamp.  The constructor asserts `target0+target1+target2 == 10000`;
the targets are passed through unchanged here. -/
def initState (owner : String) (deployTime epochSeconds minDeposit
    maxDriftBps target0 target1 target2 : Nat) : VaultState :=
  { owner := owner
    paused := none
    guardArmed := none
    autonomousEnabled := none
    autonScheduled := none
    reentrancyGuard := none
    deferredCallActive := none
    totalShares := 0
    shares := []
    lastRebalance := deployTime
    epochSeconds := epochSeconds
    minDeposit := minDeposit
    maxDriftBps := maxDriftBps
    target0 := target0
    target1 := target1
    target2 := target2 }

/-- External observations made during `deposit`: the vault's USDC balance
as reported by the token contract before and after the `transferFrom`
call. -/
structure DepositEnv where
  balanceBefore : Nat
  balanceAfter : Nat
deriving DecidableEq

/-- Model of `deposit` (main.ts lines 1042-1112).  Checks, in source
order: paused (key presence), reentrancy (key presence), minimum deposit,
then the transfer-in verification `balanceAfter >= balanceBefore + amount`
where the right-hand `u64` addition wraps.  On success mints `amount`
shares 1:1 to the caller and to the total (both `u64` additions wrap).
The reentrancy key is set before the external call and deleted after, so
it is absent again in the returned state. -/
def deposit (s : VaultState) (caller : String) (amount : Nat)
    (env : DepositEnv) : Except String (VaultState × List String) :=
  if s.paused.isSome then Except.error "Contract is paused"
  else if s.reentrancyGuard.isSome then
    Except.error "Reentrancy attempt detected"
  else if amount < s.minDeposit then
    Except.error "Amount below minimum deposit"
  else if env.balanceAfter < u64 (env.balanceBefore + amount) then
    Except.error "USDC transfer failed"
  else
    let currentShares := (lookupShares s.shares caller).getD 0
    let newShares := u64 (currentShares + amount)
    let newTotal := u64 (s.totalShares + amount)
    Except.ok
      ({ s with
          shares := setShares s.shares caller newShares
          totalShares := newTotal },
        ["Deposit"])

/-- External observations made during `redeem`: the three token balances
read at the start, the router-reported outputs of the two optional
liquidation swaps (toUSDC path), and the vault's USDC balance re-read just
before the final transfer (toUSDC path). -/
structure RedeemEnv where
  wmasBalance : Nat
  wethBalance : Nat
  usdcBalance : Nat
  wmasSwapOut : Nat
  wethSwapOut : Nat
  finalUsdcBalance : Nat
deriving DecidableEq

/-- Result of a successful `redeem` call: the new state, the emitted event
tags, and the token transfers `(token, amount)` sent to the caller. -/
structure RedeemOutcome where
  state : VaultState
  events : List String
  transfers : List (String × Nat)
deriving DecidableEq

/-- The transfers performed by the non-USDC redeem branch (main.ts lines
1243-1246): one `transfer` per token, zero amounts skipped
(`transferTokenToUser`, line 1268). -/
def payoutTransfers (wmas weth usdc : Nat) : List (String × Nat) :=
  (if wmas = 0 then [] else [("WMAS", wmas)]) ++
    (if weth = 0 then [] else [("WETH", weth)]) ++
      (if usdc = 0 then [] else [("USDC", usdc)])

/-- The `totalUSDC` accumulator of the toUSDC redeem branch (main.ts lines
1165, 1193, 1226): the holder's proportional USDC plus the two swap
outputs.  The source computes this value but never uses it for the final
transfer, which instead sends the re-read full vault balance. -/
def redeemIntendedUsdcPayout (userUsdc wmasOut wethOut : Nat) : Nat :=
  u64 (u64 (userUsdc + wmasOut) + wethOut)

/-- Model of `redeem` (main.ts lines 1118-1258).  Per-asset payouts are
`(shares * balance) / totalShares` where the `u64` multiplication wraps
before the division.  Shares are burned before any transfer.  In the
`toUSDC` branch the source swaps the WMAS and WETH payouts and then
transfers the vault's entire re-read USDC balance (`finalUsdc`, lines
1233-1237) to the caller. -/
def redeem (s : VaultState) (caller : String) (shares : Nat)
    (toUSDC : Bool) (env : RedeemEnv) : Except String RedeemOutcome :=
  match lookupShares s.shares caller with
  | none => Except.error "No shares to redeem"
  | some currentShares =>
    if currentShares < shares then Except.error "Insufficient shares"
    else if s.totalShares = 0 then Except.error "No shares in circulation"
    else
      let userWmas := u64 (shares * env.wmasBalance) / s.totalShares
      let userWeth := u64 (shares * env.wethBalance) / s.totalShares
      let userUsdc := u64 (shares * env.usdcBalance) / s.totalShares
      let newShares := currentShares - shares
      let sharesMap :=
        if newShares > 0 then setShares s.shares caller newShares
        else delShares s.shares caller
      let s1 := { s with
        shares := sharesMap
        totalShares := u64sub s.totalShares shares }
      if toUSDC then
        let swapEvents :=
          (if userWmas > 0 then ["SwapExecutedRedeemWmas"] else []) ++
            (if userWeth > 0 then ["SwapExecutedRedeemWeth"] else [])
        let transfers :=
          if env.finalUsdcBalance = 0 then []
          else [("USDC", env.finalUsdcBalance)]
        Except.ok
          ⟨s1, swapEvents ++ ["RedeemExecuted", "Withdraw"], transfers⟩
      else
        Except.ok
          ⟨s1, ["RedeemExecuted", "Withdraw"],
            payoutTransfers userWmas userWeth userUsdc⟩

/-- Projection of the transfers of a redeem result (empty on revert). -/
def redeemTransfers (r : Except String RedeemOutcome) :
    List (String × Nat) :=
  match r with
  | Except.ok o => o.transfers
  | Except.error _ => []

/-- Model of `pause` (main.ts lines 1396-1404): owner-only, stores value
`"true"` under the paused key. -/
def pause (s : VaultState) (caller : String) :
    Except String (VaultState × List String) :=
  if caller = s.owner then
    Except.ok ({ s with paused := some "true" }, ["ContractPaused"])
  else Except.error "Only owner can pause"

/-- Model of `unpause` (main.ts lines 1409-1417): owner-only, stores the
string value `"false"` under the paused key — it does not delete the
key. -/
def unpause (s : VaultState) (caller : String) :
    Except String (VaultState × List String) :=
  if caller = s.owner then
    Except.ok ({ s with paused := some "false" }, ["ContractUnpaused"])
  else Except.error "Only owner can unpause"

/-- Model of `isPaused` (main.ts lines 1533-1536): returns
`Storage.has(PAUSED_KEY)` — key presence, not the stored value. -/
def isPaused (s : VaultState) : Bool := s.paused.isSome

/-- Projection of `getAutonomousStatus` (main.ts lines 295-349) restricted
to the fields the claims mention. -/
structure AutonomousStatus where
  enabled : Bool
  deferredCallActiveFlag : Bool
  lastRebalanceTime : Nat
deriving DecidableEq

/-- Model of `getAutonomousStatus`: the `enabled` field is computed as
`Storage.has('AUTONOMOUS_MODE_ENABLED')` (line 299) — key presence, not
the stored value; `deferredCallActive` compares the stored value with
`"true"` (lines 302-306). -/
def getAutonomousStatus (s : VaultState) : AutonomousStatus :=
  { enabled := s.autonomousEnabled.isSome
    deferredCallActiveFlag :=
      match s.deferredCallActive with
      | some v => v = "true"
      | none => false
    lastRebalanceTime := s.lastRebalance }

/-- External observations made during `startAutonomousRebalancing`: the
contract's native-coin balance and the host's deferred-call quote. -/
structure StartEnv where
  gasBank : Nat
  quote : Nat
deriving DecidableEq

/-- Model of `startAutonomousRebalancing` (main.ts lines 180-278).  Owner
check is a hard assert; the `totalShares == 0` and guard-not-armed checks
are graceful skips (`generateEvent` + `return`, lines 194-204), not
reverts; an insufficient gas bank is a hard assert (line 241).  On success
the schedule keys are written and autonomy is enabled. -/
def startAutonomousRebalancing (s : VaultState) (caller : String)
    (now : Nat) (env : StartEnv) :
    Except String (VaultState × List String) :=
  if caller = s.owner then
    if s.totalShares = 0 then
      Except.ok (s, ["AutonomousStartSkippedNoDeposits"])
    else if s.guardArmed.isNone then
      Except.ok (s, ["AutonomousStartSkippedGuardOff"])
    else if env.gasBank < env.quote then
      Except.error "Insufficient gas bank"
    else
      Except.ok
        ({ s with
            autonomousEnabled := some "true"
            lastRebalance := now
            deferredCallActive := some "true" },
          ["AutonomousModeStarted"])
  else Except.error "Only owner can start autonomous rebalancing"

/-- A swap leg submitted to the DEX router during a rebalance: input
token, final output token, committed input amount, and whether the path
is multi-hop (USDC → WMAS → WETH). -/
structure Swap where
  tokenIn : String
  tokenOut : String
  amountIn : Nat
  multiHop : Bool
deriving DecidableEq

/-- Result of a rebalance-flavoured entry point: the new state, the
emitted event tags, and the swap legs submitted to the router. -/
structure CallOutcome where
  state : VaultState
  events : List String
  swaps : List Swap
deriving DecidableEq

/-- External observations made during `executeRebalanceInternal`: the
three token balances read at step 1, the router-reported outputs of the
two possible swap legs, and the native-coin balance read by
`scheduleNextRebalance`. -/
structure RebalEnv where
  wmasBalance : Nat
  wethBalance : Nat
  usdcBalance : Nat
  leg1Out : Nat
  leg2Out : Nat
  gasBank : Nat
deriving DecidableEq

/-- Swap sizing shared by both rebalance legs (main.ts lines 725-726 and
753-754): `deficit > usdcBalance ? usdcBalance / 2 : deficit`.  The
half-balance cap applies only when the deficit exceeds the whole base
balance; otherwise the full deficit is committed. -/
def legSwapAmount (deficit usdcBalance : Nat) : Nat :=
  if deficit > usdcBalance then usdcBalance / 2 else deficit

/-- One under-target swap leg (main.ts lines 721-745 for WMAS, 749-768
for WETH; the two blocks are identical up to the asset).  Fires when the
current allocation is more than 100 bps below target (`u64` subtraction),
the sized amount is at least 10000 and the base balance covers it. -/
def underTargetLegAmount (targetBps currentBps value total usdcBalance :
    Nat) : Option Nat :=
  if currentBps < u64sub targetBps 100 then
    let deficit := u64sub (u64 (total * targetBps) / 10000) value
    let amt := legSwapAmount deficit usdcBalance
    if 10000 ≤ amt ∧ amt ≤ usdcBalance then some amt else none
  else none

/-- The swap legs actually submitted, given the two leg amounts: leg 1 is
the direct USDC→WMAS swap (`executeTestSwap`), leg 2 the multi-hop
USDC→WMAS→WETH swap (`executeMultiHopSwap`). -/
def swapsOfLegs (l1 l2 : Option Nat) : List Swap :=
  (match l1 with
    | some a => [{ tokenIn := "USDC", tokenOut := "WMAS", amountIn := a,
                   multiHop := false }]
    | none => []) ++
    (match l2 with
      | some a => [{ tokenIn := "USDC", tokenOut := "WETH", amountIn := a,
                     multiHop := true }]
      | none => [])

/-- Model of the recursive self-`call` to `rebalance` issued inside
`scheduleNextRebalance` (main.ts lines 926-931), one level deep with the
contract itself as caller.  `rebalance` (lines 1318-1382) then skips on:
no deposits, guard off, low gas bank, or the epoch gate.  In the source
the call happens right after `last_rebalance` was set to the current
timestamp, so with a positive timestamp and epoch it always hits the
"Too soon" skip; the remaining configuration (zero timestamp or zero
epoch) would recurse and is marked with an explicit tag instead of being
unfolded further. -/
def rebalanceInnerSelfCall (s : VaultState) (now gasBank : Nat) :
    VaultState × List String :=
  if s.totalShares = 0 then
    ({ s with autonScheduled := some "false" },
      ["RebalanceSkippedNoDeposits"])
  else if s.guardArmed.isNone then
    ({ s with autonScheduled := none }, ["RebalanceSkippedGuardOff"])
  else if gasBank < 100000000 then
    ({ s with autonScheduled := some "false" },
      ["AutonomousRebalanceSkippedLowGas"])
  else if s.lastRebalance > 0 ∧
      now < s.lastRebalance + s.epochSeconds * 1000 then
    (s, ["RebalanceSkippedTooSoon"])
  else (s, ["InnerRebalanceRecursionOmitted"])

/-- Model of `scheduleNextRebalance` (main.ts lines 916-939): if the
native balance exceeds 0.1 MAS it synchronously calls `rebalance` on
itself and then stores `auton_scheduled = 'true'`; otherwise it stores
`'false'`. -/
def scheduleNextRebalance (s : VaultState) (now gasBank : Nat) :
    VaultState × List String :=
  if gasBank > 100000000 then
    let r := rebalanceInnerSelfCall s now gasBank
    ({ r.1 with autonScheduled := some "true" }, r.2)
  else ({ s with autonScheduled := some "false" }, [])

/-- The source's `wmasValueUSDC` (main.ts line 644): the WMAS balance
valued in microUSDC, `(wmasBalance * 6) / 100000` with wrapping `u64`
multiplication. -/
def wmasValueOf (env : RebalEnv) : Nat := u64 (env.wmasBalance * 6) / 100000

/-- The source's `wethValueUSDC` (main.ts line 647):
`(wethBalance * 3) / 1000000000` with wrapping `u64` multiplication. -/
def wethValueOf (env : RebalEnv) : Nat :=
  u64 (env.wethBalance * 3) / 1000000000

/-- The source's `totalValueUSDC` (main.ts line 653): the left-associated
`u64` sum of the three asset values (USDC is already in microUSDC). -/
def totalValueOf (env : RebalEnv) : Nat :=
  u64 (u64 (wmasValueOf env + wethValueOf env) + env.usdcBalance)

/-- Current allocation of one asset in basis points (main.ts lines
662-664): `(value * 10000) / total` with wrapping multiplication. -/
def bpsOf (value total : Nat) : Nat := u64 (value * 10000) / total

/-- Per-asset drift magnitude (main.ts lines 674-685):
`cur > target ? cur - target : target - cur`. -/
def driftOf (cur target : Nat) : Nat :=
  if cur > target then cur - target else target - cur

/-- The source's `maxDrift` (main.ts lines 688-695), with the exact
nested-conditional structure of the source. -/
def maxDriftOf (s : VaultState) (env : RebalEnv) : Nat :=
  let wmasDrift := driftOf (bpsOf (wmasValueOf env) (totalValueOf env))
    s.target0
  let wethDrift := driftOf (bpsOf (wethValueOf env) (totalValueOf env))
    s.target1
  let usdcDrift := driftOf (bpsOf env.usdcBalance (totalValueOf env))
    s.target2
  if wmasDrift > wethDrift then
    (if wmasDrift > usdcDrift then wmasDrift else usdcDrift)
  else (if wethDrift > usdcDrift then wethDrift else usdcDrift)

/-- The WMAS swap leg (main.ts lines 721-745): direct USDC→WMAS. -/
def leg1Of (s : VaultState) (env : RebalEnv) : Option Nat :=
  underTargetLegAmount s.target0
    (bpsOf (wmasValueOf env) (totalValueOf env)) (wmasValueOf env)
    (totalValueOf env) env.usdcBalance

/-- The WETH swap leg (main.ts lines 749-768): multi-hop
USDC→WMAS→WETH. -/
def leg2Of (s : VaultState) (env : RebalEnv) : Option Nat :=
  underTargetLegAmount s.target1
    (bpsOf (wethValueOf env) (totalValueOf env)) (wethValueOf env)
    (totalValueOf env) env.usdcBalance

/-- Model of `executeRebalanceInternal` (main.ts lines 624-777).  It
first overwrites `last_rebalance` with the current timestamp, values the
three balances in microUSDC with the hard-coded prices (all `u64`
arithmetic wraps), skips on zero total value, computes per-asset basis
points and drifts, skips (and reschedules) when the maximum drift is
within threshold, and otherwise sizes and submits up to two swap legs
before rescheduling.  There is no epoch check anywhere in this
function. -/
def executeRebalanceInternal (s : VaultState) (now : Nat)
    (env : RebalEnv) : CallOutcome :=
  let s1 := { s with lastRebalance := now }
  if totalValueOf env = 0 then ⟨s1, ["RebalanceSkippedZeroValue"], []⟩
  else if maxDriftOf s env ≤ s.maxDriftBps then
    ⟨(scheduleNextRebalance s1 now env.gasBank).1,
      ["DriftCalculated", "RebalanceSkippedWithinThreshold"] ++
        (scheduleNextRebalance s1 now env.gasBank).2,
      []⟩
  else
    let legEvents :=
      (match leg1Of s env with
        | some _ => ["SwapExecuted"]
        | none => []) ++
        (match leg2Of s env with
          | some _ => ["MultiHopSwapExecuted"]
          | none => [])
    ⟨(scheduleNextRebalance s1 now env.gasBank).1,
      ["DriftCalculated"] ++ legEvents ++ ["RebalanceExecuted"] ++
        (scheduleNextRebalance s1 now env.gasBank).2,
      swapsOfLegs (leg1Of s env) (leg2Of s env)⟩

/-- External observations made during `triggerRebalance`: the rebalance
environment plus the native-coin balance read in the autonomy section
(line 371), the deferred-call quote (line 404) and the balance re-read
after quoting (line 407). -/
structure TriggerEnv where
  rebalEnv : RebalEnv
  gasBankAfterRebal : Nat
  quote : Nat
  gasBankAtRecheck : Nat
deriving DecidableEq

/-- Model of `triggerRebalance` (main.ts lines 355-434).  It emits a
start event and immediately runs `executeRebalanceInternal` — with no
authorization, deposit, guard or epoch check.  Afterwards, if the
`AUTONOMOUS_MODE_ENABLED` key is present: a gas bank below
`MIN_GAS_BANK_BALANCE` stores the string `'false'` under that key (the
key stays present) and emits `AutonomousModeStopped`; otherwise it quotes
and either registers the next deferred call or stops the same way. -/
def triggerRebalance (s : VaultState) (now : Nat) (env : TriggerEnv) :
    CallOutcome :=
  let r := executeRebalanceInternal s now env.rebalEnv
  let evs := "TriggerRebalanceStarted" :: r.events
  if r.state.autonomousEnabled.isSome then
    if env.gasBankAfterRebal < MIN_GAS_BANK_BALANCE then
      ⟨{ r.state with autonomousEnabled := some "false" },
        evs ++ ["AutonomousModeStopped"], r.swaps⟩
    else if env.gasBankAtRecheck ≥ env.quote ∧
        env.gasBankAtRecheck ≥ MIN_GAS_BANK_BALANCE then
      ⟨r.state, evs ++ ["NextRebalanceScheduled"], r.swaps⟩
    else
      ⟨{ r.state with autonomousEnabled := some "false" },
        evs ++ ["AutonomousModeStopped"], r.swaps⟩
  else ⟨r.state, evs, r.swaps⟩

/-- External observations made during a single router swap: the
destination-token balance before the router call, the router's reported
output amount, and the destination-token balance after. -/
structure SwapEnv where
  balanceBefore : Nat
  routerAmountOut : Nat
  balanceAfter : Nat
deriving DecidableEq

/-- What a swap helper returns: the router's reported output and the two
destination-balance reads it performed. -/
structure SwapCallResult where
  amountOut : Nat
  balanceBefore : Nat
  balanceAfter : Nat
deriving DecidableEq

/-- Model of `executeTestSwap` (main.ts lines 546-614).  The source reads
the destination balance before and after the router call, but the
verification `assert(balanceAfter > balanceBefore, ...)` at line 607 is
commented out ("DISABLED FOR DEBUGGING"), so the function completes and
returns the router's reported output regardless of whether the
destination balance increased. -/
def executeTestSwap (tokenIn tokenOut : String)
    (amountIn minAmountOut : Nat) (env : SwapEnv) :
    Except String SwapCallResult :=
  Except.ok
    { amountOut := env.routerAmountOut
      balanceBefore := env.balanceBefore
      balanceAfter := env.balanceAfter }

/-- Model of `executeMultiHopSwap` (main.ts lines 852-911).  As in
`executeTestSwap`, the post-swap verification `assert(balanceAfter >
balanceBefore, ...)` at lines 901-904 is commented out, so the function
completes regardless of the destination balance. -/
def executeMultiHopSwap (amountIn minAmountOut : Nat) (env : SwapEnv) :
    Except String SwapCallResult :=
  Except.ok
    { amountOut := env.routerAmountOut
      balanceBefore := env.balanceBefore
      balanceAfter := env.balanceAfter }

/-- One user-level ledger operation, carrying the values the external
token contract reports during it. -/
inductive Op where
  | dep (caller : String) (amount : Nat) (env : DepositEnv)
  | red (caller : String) (shares : Nat) (toUSDC : Bool) (env : RedeemEnv)

/-- Apply one operation: a revert (assert failure) rolls the state back,
i.e. leaves it unchanged. -/
def applyOp (s : VaultState) (op : Op) : VaultState :=
  match op with
  | Op.dep c a env =>
    match deposit s c a env with
    | Except.ok r => r.1
    | Except.error _ => s
  | Op.red c sh t env =>
    match redeem s c sh t env with
    | Except.ok r => r.state
    | Except.error _ => s

/-- Run a sequence of deposit/redeem operations. -/
def runOps (s : VaultState) : List Op → VaultState
  | [] => s
  | op :: rest => runOps (applyOp s op) rest

/-- Projection of the shares map of a redeem result (empty on revert). -/
def redeemStateShares (r : Except String RedeemOutcome) :
    List (String × Nat) :=
  match r with
  | Except.ok o => o.state.shares
  | Except.error _ => []

/-- Concrete vault for the epoch-gating scenario: 30-minute epoch, 500
bps threshold, targets 3333/3334/3333, one depositor, autonomy off. -/
def stateC1 : VaultState :=
  { owner := "OWN", paused := none, guardArmed := none
    autonomousEnabled := none, autonScheduled := none
    reentrancyGuard := none, deferredCallActive := none
    totalShares := 1000000, shares := [("A", 1000000)]
    lastRebalance := 0, epochSeconds := 1800, minDeposit := 10000
    maxDriftBps := 500, target0 := 3333, target1 := 3334,
    target2 := 3333 }

/-- External world for the epoch-gating scenario: the vault holds no
WMAS, WETH worth 1 USDC million-units and 1 USDC million-units of USDC,
so WMAS drifts 3333 bps below target; the gas bank is empty so no
rescheduling happens. -/
def envC1 : TriggerEnv :=
  { rebalEnv :=
      { wmasBalance := 0, wethBalance := 333333333333334
        usdcBalance := 1000000, leg1Out := 1, leg2Out := 0, gasBank := 0 }
    gasBankAfterRebal := 0, quote := 0, gasBankAtRecheck := 0 }

/-- Concrete vault for the redeem-to-base scenario: two holders with
500000 shares each. -/
def stateC2 : VaultState :=
  { owner := "OWN", paused := none, guardArmed := none
    autonomousEnabled := none, autonScheduled := none
    reentrancyGuard := none, deferredCallActive := none
    totalShares := 1000000, shares := [("A", 500000), ("B", 500000)]
    lastRebalance := 0, epochSeconds := 1800, minDeposit := 10000
    maxDriftBps := 500, target0 := 3333, target1 := 3334,
    target2 := 3333 }

/-- External world for the redeem-to-base scenario: the vault holds only
1000000 USDC units; holder A redeems half the shares, so no liquidation
swaps run and the final balance read still reports 1000000. -/
def envC2 : RedeemEnv :=
  { wmasBalance := 0, wethBalance := 0, usdcBalance := 1000000
    wmasSwapOut := 0, wethSwapOut := 0, finalUsdcBalance := 1000000 }

/-- Concrete vault for the autonomy-exhaustion scenario: autonomous mode
is on (key present with value `"true"`). -/
def stateC4 : VaultState :=
  { owner := "OWN", paused := none, guardArmed := some "true"
    autonomousEnabled := some "true", autonScheduled := none
    reentrancyGuard := none, deferredCallActive := some "true"
    totalShares := 1000000, shares := [("A", 1000000)]
    lastRebalance := 0, epochSeconds := 1800, minDeposit := 10000
    maxDriftBps := 500, target0 := 3333, target1 := 3334,
    target2 := 3333 }

/-- External world for the autonomy-exhaustion scenario: empty vault (so
the rebalance itself is a zero-value skip) and a 1 MAS gas bank, below
the 2 MAS `MIN_GAS_BANK_BALANCE`. -/
def envC4 : TriggerEnv :=
  { rebalEnv :=
      { wmasBalance := 0, wethBalance := 0, usdcBalance := 0
        leg1Out := 0, leg2Out := 0, gasBank := 0 }
    gasBankAfterRebal := 1000000000, quote := 0, gasBankAtRecheck := 0 }

/-- Concrete vault for the proportional-redemption overflow scenario: a
single holder owns all 2^32 shares. -/
def stateC5 : VaultState :=
  { owner := "OWN", paused := none, guardArmed := none
    autonomousEnabled := none, autonScheduled := none
    reentrancyGuard := none, deferredCallActive := none
    totalShares := 4294967296, shares := [("A", 4294967296)]
    lastRebalance := 0, epochSeconds := 1800, minDeposit := 10000
    maxDriftBps := 500, target0 := 3333, target1 := 3334,
    target2 := 3333 }

/-- External world for the proportional-redemption overflow scenario: the
vault holds 2^32 WMAS units, so `shares * wmasBalance` is exactly 2^64
and the `u64` product wraps to zero. -/
def envC5 : RedeemEnv :=
  { wmasBalance := 4294967296, wethBalance := 0, usdcBalance := 0
    wmasSwapOut := 0, wethSwapOut := 0, finalUsdcBalance := 0 }

/-- Concrete vault for the confirmed-part witness of the proportional
redemption claim. -/
def stateC5w : VaultState :=
  { owner := "OWN", paused := none, guardArmed := none
    autonomousEnabled := none, autonScheduled := none
    reentrancyGuard := none, deferredCallActive := none
    totalShares := 100, shares := [("A", 100)]
    lastRebalance := 0, epochSeconds := 1800, minDeposit := 10000
    maxDriftBps := 500, target0 := 3333, target1 := 3334,
    target2 := 3333 }

/-- External world for the proportional-redemption witness: small
balances, no overflow anywhere. -/
def envC5w : RedeemEnv :=
  { wmasBalance := 50, wethBalance := 7, usdcBalance := 30
    wmasSwapOut := 0, wethSwapOut := 0, finalUsdcBalance := 0 }

/-- Fresh vault for the share-invariant scenarios: deployed with
`minDeposit = 0` and targets 3333/3334/3333. -/
def stateC6init : VaultState := initState "OWN" 0 1800 0 500 3333 3334 3333

/-- Two deposits of 2^63 each by different holders; the token contract
reports balances consistent with the wrapped transfer check. -/
def opsC6 : List Op :=
  [Op.dep "A" 9223372036854775808
      { balanceBefore := 0, balanceAfter := 9223372036854775808 },
    Op.dep "B" 9223372036854775808
      { balanceBefore := 9223372036854775808, balanceAfter := 0 }]

/-- Fresh vault for the deposit-verification overflow scenario. -/
def stateC7 : VaultState := initState "OWN" 0 1800 0 500 3333 3334 3333

/-- External world for the deposit-verification overflow scenario: the
token reports a balance of 2^64 - 1 both before and after the transfer —
no funds moved — yet `balanceBefore + amount` wraps to 9, so the `u64`
comparison succeeds. -/
def envC7 : DepositEnv :=
  { balanceBefore := 18446744073709551615
    balanceAfter := 18446744073709551615 }

/-- Fresh vault for the deposit-verification witness scenario. -/
def stateC7w : VaultState := initState "OWN" 0 1800 0 500 3333 3334 3333

/-- External world for the deposit-verification witness: the token
reports 10 before and 3 after, so fewer than `amount = 5` units moved. -/
def envC7w : DepositEnv := { balanceBefore := 10, balanceAfter := 3 }

/-- Fresh vault for the start-autonomy precondition scenario: zero total
shares, guard not armed. -/
def stateC8 : VaultState := initState "OWN" 0 1800 10000 500 3333 3334 3333

/-- Vault for the start-autonomy amended-claim witness: deposits present
but guard not armed. -/
def stateC8w : VaultState :=
  { initState "OWN" 0 1800 10000 500 3333 3334 3333 with
      totalShares := 1000000, shares := [("A", 1000000)] }

/-- Concrete vault for the anti-drain-cap scenario (same configuration as
the epoch-gating vault, its own constant). -/
def stateC9 : VaultState :=
  { owner := "OWN", paused := none, guardArmed := none
    autonomousEnabled := none, autonScheduled := none
    reentrancyGuard := none, deferredCallActive := none
    totalShares := 1000000, shares := [("A", 1000000)]
    lastRebalance := 0, epochSeconds := 1800, minDeposit := 10000
    maxDriftBps := 500, target0 := 3333, target1 := 3334,
    target2 := 3333 }

/-- External world for the anti-drain-cap scenario: WETH worth 1000000
microUSDC and 1000000 USDC units, no WMAS.  The WMAS deficit is 666600,
below the full USDC balance but above half of it. -/
def envC9 : RebalEnv :=
  { wmasBalance := 0, wethBalance := 333333333333334
    usdcBalance := 1000000, leg1Out := 1, leg2Out := 0, gasBank := 0 }

/-- Vault for the pause-latch witness scenario. -/
def stateC10w : VaultState := initState "OWN" 0 1800 10000 500 3333 3334 3333

/-- Ledger well-formedness: the stored total agrees with the sum of the
per-holder balances modulo 2^64, the stored total is a valid `u64`, and
every stored per-holder balance is a valid `u64`. -/
def LedgerInv (s : VaultState) : Prop :=
  s.totalShares % U64MOD = sharesSum s.shares % U64MOD ∧
    s.totalShares < U64MOD ∧ ∀ p ∈ s.shares, p.2 < U64MOD

/-- C1: two `triggerRebalance` calls 10 seconds apart with `epochSeconds
= 1800`.  The second call, although well inside the epoch, executes the
full drift computation, submits a 666600-unit swap and overwrites
`last_rebalance` — it is not a no-op skip and emits no skip event.  The
epoch gate exists only in the separate `rebalance` entry point. -/
theorem c1_triggerRebalance_not_epoch_gated :
    (triggerRebalance stateC1 1000000 envC1).state.lastRebalance
        = 1000000 ∧
      (triggerRebalance (triggerRebalance stateC1 1000000 envC1).state
            1010000 envC1).events
        = ["TriggerRebalanceStarted", "DriftCalculated", "SwapExecuted",
            "RebalanceExecuted"] ∧
      (triggerRebalance (triggerRebalance stateC1 1000000 envC1).state
            1010000 envC1).swaps
        = [{ tokenIn := "USDC", tokenOut := "WMAS", amountIn := 666600,
             multiHop := false }] ∧
      (triggerRebalance (triggerRebalance stateC1 1000000 envC1).state
            1010000 envC1).state.lastRebalance = 1010000 ∧
      1010000 < 1000000 + stateC1.epochSeconds * 1000 := by
  refine ⟨rfl, rfl, rfl, rfl, by decide⟩

/-- C2: holder A redeems 500000 of 1000000 total shares with `toUSDC =
true` against a vault holding only 1000000 USDC units.  The code
transfers the vault's entire re-read USDC balance (1000000) to A —
although A's own payout (the `totalUSDC` accumulator the source computes
and then ignores) is 500000 — and leaves holder B with 500000 shares
against an emptied vault. -/
theorem c2_redeem_to_base_pays_whole_balance :
    redeemTransfers (redeem stateC2 "A" 500000 true envC2)
        = [("USDC", 1000000)] ∧
      redeemIntendedUsdcPayout (u64 (500000 * 1000000) / 1000000) 0 0
        = 500000 ∧
      redeemStateShares (redeem stateC2 "A" 500000 true envC2)
        = [("B", 500000)] := by
  refine ⟨rfl, rfl, rfl⟩

/-- C3: the post-swap balance verification is commented out in the source
(main.ts lines 607 and 901-904), so both swap helpers complete and return
the router-reported output for every environment — in particular when the
destination balance did not increase at all (here: 100 before, 100
after), where the claim requires the whole rebalance to abort. -/
theorem c3_swap_verification_disabled :
    (∀ (tokenIn tokenOut : String) (amountIn minAmountOut : Nat)
        (env : SwapEnv),
        executeTestSwap tokenIn tokenOut amountIn minAmountOut env
          = Except.ok
              { amountOut := env.routerAmountOut
                balanceBefore := env.balanceBefore
                balanceAfter := env.balanceAfter }) ∧
      (∀ (amountIn minAmountOut : Nat) (env : SwapEnv),
        executeMultiHopSwap amountIn minAmountOut env
          = Except.ok
              { amountOut := env.routerAmountOut
                balanceBefore := env.balanceBefore
                balanceAfter := env.balanceAfter }) ∧
      executeTestSwap "USDC" "WMAS" 500000 1
          { balanceBefore := 100, routerAmountOut := 0,
            balanceAfter := 100 }
        = Except.ok
            { amountOut := 0, balanceBefore := 100, balanceAfter := 100 } ∧
      executeMultiHopSwap 500000 1
          { balanceBefore := 100, routerAmountOut := 0,
            balanceAfter := 100 }
        = Except.ok
            { amountOut := 0, balanceBefore := 100, balanceAfter := 100 } := by
  exact ⟨fun _ _ _ _ _ => rfl, fun _ _ _ => rfl, rfl, rfl⟩

/-- C4: with autonomy on and a 1 MAS gas bank (below the 2 MAS reserve),
`triggerRebalance` completes normally, emits `AutonomousModeStopped` and
stores the string `"false"` under the enabled key — but because
`getAutonomousStatus` computes its `enabled` field as key *presence*, the
status query still reports autonomy as enabled afterwards. -/
theorem c4_autonomy_stop_leaves_status_enabled :
    (triggerRebalance stateC4 5000 envC4).events
        = ["TriggerRebalanceStarted", "RebalanceSkippedZeroValue",
            "AutonomousModeStopped"] ∧
      (triggerRebalance stateC4 5000 envC4).state.autonomousEnabled
        = some "false" ∧
      (getAutonomousStatus
          (triggerRebalance stateC4 5000 envC4).state).enabled = true := by
  refine ⟨rfl, rfl, rfl⟩

/-- C5 counterexample: a holder with 2^32 shares out of 2^32 total
redeems everything in kind while the vault holds 2^32 WMAS units.  The
claimed payout is `floor(2^32 * 2^32 / 2^32) = 2^32`, but the source's
`u64` product `shares * wmasBalance` wraps to zero, so the code pays
nothing at all. -/
theorem c5_counterexample_u64_wrap :
    redeemTransfers (redeem stateC5 "A" 4294967296 false envC5) = [] ∧
      4294967296 * 4294967296 / 4294967296 = 4294967296 := by
  refine ⟨rfl, by decide⟩

/-- C6 counterexample: two deposits of 2^63 shares each (by different
holders) make the stored `total_shares` wrap to 0 while the per-holder
balances sum to 2^64, so the literal equality `TotalShares = Σ holder
shares` fails. -/
theorem c6_counterexample_total_wraps :
    (runOps stateC6init opsC6).totalShares = 0 ∧
      sharesSum (runOps stateC6init opsC6).shares
        = 18446744073709551616 := by
  refine ⟨rfl, rfl⟩

/-- C7 counterexample: with a reported pre-transfer balance of 2^64 - 1
and `amount = 10`, the source's `u64` sum `balanceBefore + amount` wraps
to 9, so the verification passes although the token moved nothing (the
balance is unchanged) and shares are minted. -/
theorem c7_counterexample_check_wraps :
    (deposit stateC7 "A" 10 envC7).isOk = true ∧
      envC7.balanceAfter < envC7.balanceBefore + 10 := by
  refine ⟨rfl, by decide⟩

/-- C8 counterexample: the owner calls `startAutonomousRebalancing` on a
vault with zero total shares.  The call does not revert: it returns
normally with an `AutonomousStartSkipped` event and the state unchanged
(main.ts lines 194-197 are a `generateEvent` + `return`, not an
assert). -/
theorem c8_counterexample_no_revert :
    startAutonomousRebalancing stateC8 "OWN" 7
        { gasBank := 0, quote := 0 }
      = Except.ok (stateC8, ["AutonomousStartSkippedNoDeposits"]) := by
  rfl

/-- C9 counterexample: with no WMAS, WETH worth 1000000 microUSDC and
1000000 USDC units, the WMAS leg's deficit is 666600 — not more than the
USDC balance, so the source commits the full deficit, which exceeds half
of the base-asset balance (500000). -/
theorem c9_counterexample_exceeds_half :
    (executeRebalanceInternal stateC9 5000 envC9).swaps
        = [{ tokenIn := "USDC", tokenOut := "WMAS", amountIn := 666600,
             multiHop := false }] ∧
      envC9.usdcBalance / 2 < 666600 := by
  refine ⟨rfl, by decide⟩

/-- A looked-up holder balance never exceeds the sum of all balances. -/
theorem lookupShares_getD_le_sum (m : List (String × Nat)) (k : String) :
    (lookupShares m k).getD 0 ≤ sharesSum m := by
  induction m with
  | nil => simp [lookupShares, sharesSum]
  | cons hd tl ih =>
    rcases hd with ⟨a, v⟩
    simp only [lookupShares, sharesSum]
    split
    · simp
    · omega

/-- Updating one holder changes the sum by the difference between the new
value and the old looked-up value. -/
theorem sharesSum_setShares (m : List (String × Nat)) (k : String)
    (v : Nat) :
    sharesSum (setShares m k v) + (lookupShares m k).getD 0
      = sharesSum m + v := by
  induction m with
  | nil => simp [setShares, sharesSum, lookupShares]
  | cons hd tl ih =>
    rcases hd with ⟨a, w⟩
    simp only [setShares, sharesSum, lookupShares]
    split
    · simp [sharesSum]; omega
    · simp only [sharesSum]; omega

/-- Deleting one holder removes exactly the looked-up value from the
sum. -/
theorem sharesSum_delShares (m : List (String × Nat)) (k : String) :
    sharesSum (delShares m k) + (lookupShares m k).getD 0
      = sharesSum m := by
  induction m with
  | nil => simp [delShares, sharesSum, lookupShares]
  | cons hd tl ih =>
    rcases hd with ⟨a, w⟩
    simp only [delShares, sharesSum, lookupShares]
    split
    · simp [sharesSum]; omega
    · simp only [sharesSum]; omega

/-- A successful lookup exhibits a member of the association list. -/
theorem lookupShares_mem {m : List (String × Nat)} {k : String} {v : Nat}
    (h : lookupShares m k = some v) : (k, v) ∈ m := by
  induction m with
  | nil => simp [lookupShares] at h
  | cons hd tl ih =>
    rcases hd with ⟨a, w⟩
    simp only [lookupShares] at h
    split at h
    · rename_i hak
      injection h with hv
      subst hak; subst hv
      exact List.mem_cons_self _ _
    · exact List.mem_cons_of_mem _ (ih h)

/-- Every member of an updated association list is either the new entry
or an old member. -/
theorem mem_setShares {m : List (String × Nat)} {k : String} {v : Nat}
    {p : String × Nat} (h : p ∈ setShares m k v) : p = (k, v) ∨ p ∈ m := by
  induction m with
  | nil =>
    simp [setShares] at h
    exact Or.inl h
  | cons hd tl ih =>
    rcases hd with ⟨a, w⟩
    simp only [setShares] at h
    split at h
    · rcases List.mem_cons.mp h with h | h
      · exact Or.inl h
      · exact Or.inr (List.mem_cons_of_mem _ h)
    · rcases List.mem_cons.mp h with h | h
      · exact Or.inr (h ▸ List.mem_cons_self _ _)
      · rcases ih h with h | h
        · exact Or.inl h
        · exact Or.inr (List.mem_cons_of_mem _ h)

/-- Every member of a deletion-result is an old member. -/
theorem mem_delShares {m : List (String × Nat)} {k : String}
    {p : String × Nat} (h : p ∈ delShares m k) : p ∈ m := by
  induction m with
  | nil => simp [delShares] at h
  | cons hd tl ih =>
    rcases hd with ⟨a, w⟩
    simp only [delShares] at h
    split at h
    · exact List.mem_cons_of_mem _ h
    · rcases List.mem_cons.mp h with h | h
      · exact h ▸ List.mem_cons_self _ _
      · exact List.mem_cons_of_mem _ (ih h)

/-- Characterization of the state written by a successful deposit. -/
theorem deposit_ok_state {s : VaultState} {c : String} {a : Nat}
    {env : DepositEnv} {r : VaultState × List String}
    (h : deposit s c a env = Except.ok r) :
    r.1 = { s with
      shares :=
        setShares s.shares c (u64 ((lookupShares s.shares c).getD 0 + a))
      totalShares := u64 (s.totalShares + a) } := by
  unfold deposit at h
  split at h
  · exact Except.noConfusion h
  · split at h
    · exact Except.noConfusion h
    · split at h
      · exact Except.noConfusion h
      · split at h
        · exact Except.noConfusion h
        · injection h with h1
          rw [← h1]

/-- Characterization of the state written by a successful redeem (both
branches burn the same shares and update the map the same way). -/
theorem redeem_ok_state {s : VaultState} {c : String} {sh : Nat}
    {t : Bool} {env : RedeemEnv} {r : RedeemOutcome}
    (h : redeem s c sh t env = Except.ok r) :
    ∃ cs, lookupShares s.shares c = some cs ∧ sh ≤ cs ∧
      s.totalShares ≠ 0 ∧
      r.state = { s with
        shares :=
          if cs - sh > 0 then setShares s.shares c (cs - sh)
          else delShares s.shares c
        totalShares := u64sub s.totalShares sh } := by
  unfold redeem at h
  split at h
  · exact Except.noConfusion h
  · rename_i cs hlk
    split at h
    · exact Except.noConfusion h
    · rename_i hlt
      split at h
      · exact Except.noConfusion h
      · rename_i hts
        refine ⟨cs, hlk, by omega, hts, ?_⟩
        split at h
        · injection h with h1
          rw [← h1]
        · injection h with h1
          rw [← h1]

/-- The ledger invariant is preserved by every deposit/redeem operation
(reverting operations leave the state unchanged). -/
theorem ledgerInv_applyOp (s : VaultState) (op : Op)
    (hinv : LedgerInv s) : LedgerInv (applyOp s op) := by
  obtain ⟨hcong, htlt, hwf⟩ := hinv
  have hM : 0 < U64MOD := by decide
  cases op with
  | dep c a env =>
    cases hdep : deposit s c a env with
    | error e =>
      simp only [applyOp, hdep]
      exact ⟨hcong, htlt, hwf⟩
    | ok r =>
      simp only [applyOp, hdep]
      rw [deposit_ok_state hdep]
      have hset :=
        sharesSum_setShares s.shares c
          (u64 ((lookupShares s.shares c).getD 0 + a))
      have hle := lookupShares_getD_le_sum s.shares c
      refine ⟨?_, Nat.mod_lt _ hM, ?_⟩
      · simp only [u64, U64MOD] at hset hcong ⊢
        omega
      · intro p hp
        rcases mem_setShares hp with hp | hp
        · rw [hp]
          exact Nat.mod_lt _ hM
        · exact hwf p hp
  | red c sh t env =>
    cases hred : redeem s c sh t env with
    | error e =>
      simp only [applyOp, hred]
      exact ⟨hcong, htlt, hwf⟩
    | ok r =>
      obtain ⟨cs, hlk, hsh, hts, hst⟩ := redeem_ok_state hred
      simp only [applyOp, hred]
      rw [hst]
      have hle := lookupShares_getD_le_sum s.shares c
      rw [hlk] at hle
      simp only [Option.getD] at hle
      have hcslt : cs < U64MOD := hwf _ (lookupShares_mem hlk)
      refine ⟨?_, Nat.mod_lt _ hM, ?_⟩
      · by_cases hpos : cs - sh > 0
        · rw [if_pos hpos]
          have hset := sharesSum_setShares s.shares c (cs - sh)
          rw [hlk] at hset
          simp only [Option.getD] at hset
          simp only [u64sub, U64MOD] at hcong hset hcslt htlt ⊢
          omega
        · rw [if_neg hpos]
          have hdel := sharesSum_delShares s.shares c
          rw [hlk] at hdel
          simp only [Option.getD] at hdel
          simp only [u64sub, U64MOD] at hcong hdel hcslt htlt ⊢
          omega
      · intro p hp
        by_cases hpos : cs - sh > 0
        · rw [if_pos hpos] at hp
          rcases mem_setShares hp with hp | hp
          · rw [hp]; omega
          · exact hwf p hp
        · rw [if_neg hpos] at hp
          exact hwf p (mem_delShares hp)

/-- The ledger invariant holds after any operation sequence from an
invariant state. -/
theorem ledgerInv_runOps (s : VaultState) (ops : List Op)
    (hinv : LedgerInv s) : LedgerInv (runOps s ops) := by
  induction ops generalizing s with
  | nil => exact hinv
  | cons op rest ih => exact ih _ (ledgerInv_applyOp s op hinv)

/-- C6 (amended): for every sequence of deposit/redeem operations from a
freshly constructed vault, the stored `total_shares` is congruent modulo
2^64 to the sum of all per-holder balances — they are equal whenever no
`u64` addition overflowed — and every stored holder balance is an
unsigned value below 2^64 (in particular never negative). -/
theorem c6_share_invariant_mod_u64 (owner : String)
    (deployTime epochSeconds minDeposit maxDriftBps t0 t1 t2 : Nat)
    (ops : List Op) :
    (runOps
          (initState owner deployTime epochSeconds minDeposit maxDriftBps
            t0 t1 t2) ops).totalShares % U64MOD
        = sharesSum
            (runOps
              (initState owner deployTime epochSeconds minDeposit
                maxDriftBps t0 t1 t2) ops).shares % U64MOD ∧
      ∀ p ∈ (runOps
          (initState owner deployTime epochSeconds minDeposit maxDriftBps
            t0 t1 t2) ops).shares, p.2 < U64MOD := by
  have h := ledgerInv_runOps
    (initState owner deployTime epochSeconds minDeposit maxDriftBps
      t0 t1 t2) ops
      ⟨rfl, by simp only [initState]; decide,
        by intro p hp; simp [initState] at hp⟩
  exact ⟨h.1, h.2.2⟩

/-- C5 (amended): `redeem(s, false)` by a holder with at least `s` shares
(whose recorded balance is bounded by the total, as the share invariant
guarantees) succeeds and pays each asset exactly
`floor((s * balance) mod 2^64 / TotalShares)` — the `u64` product wraps
before the division.  Unconditionally — wrap or no wrap — no payout ever
exceeds the vault's holding of that asset; and whenever the product
`s * balance` stays below 2^64 the payout equals the claimed
`floor(s * balance / TotalShares)` exactly. -/
theorem c5_redeem_proportional_no_overflow (s : VaultState)
    (caller : String) (shares cs : Nat) (env : RedeemEnv)
    (hlk : lookupShares s.shares caller = some cs)
    (hcs : shares ≤ cs)
    (hts : 0 < s.totalShares)
    (hle : cs ≤ s.totalShares) :
    (redeem s caller shares false env).isOk = true ∧
      redeemTransfers (redeem s caller shares false env)
        = payoutTransfers
            (u64 (shares * env.wmasBalance) / s.totalShares)
            (u64 (shares * env.wethBalance) / s.totalShares)
            (u64 (shares * env.usdcBalance) / s.totalShares) ∧
      u64 (shares * env.wmasBalance) / s.totalShares
          ≤ env.wmasBalance ∧
      u64 (shares * env.wethBalance) / s.totalShares
          ≤ env.wethBalance ∧
      u64 (shares * env.usdcBalance) / s.totalShares
          ≤ env.usdcBalance ∧
      (shares * env.wmasBalance < U64MOD →
        u64 (shares * env.wmasBalance) / s.totalShares
          = shares * env.wmasBalance / s.totalShares) ∧
      (shares * env.wethBalance < U64MOD →
        u64 (shares * env.wethBalance) / s.totalShares
          = shares * env.wethBalance / s.totalShares) ∧
      (shares * env.usdcBalance < U64MOD →
        u64 (shares * env.usdcBalance) / s.totalShares
          = shares * env.usdcBalance / s.totalShares) := by
  have hns : ¬ cs < shares := Nat.not_lt.mpr hcs
  have hts0 : ¬ s.totalShares = 0 := by omega
  have bound : ∀ b : Nat, u64 (shares * b) / s.totalShares ≤ b := by
    intro b
    calc u64 (shares * b) / s.totalShares
        ≤ shares * b / s.totalShares :=
          Nat.div_le_div_right (Nat.mod_le _ _)
      _ ≤ s.totalShares * b / s.totalShares :=
          Nat.div_le_div_right
            (Nat.mul_le_mul_right b (le_trans hcs hle))
      _ = b := Nat.mul_div_cancel_left b hts
  have exact : ∀ b : Nat, shares * b < U64MOD →
      u64 (shares * b) / s.totalShares = shares * b / s.totalShares := by
    intro b hb
    rw [u64, Nat.mod_eq_of_lt hb]
  have hred : redeem s caller shares false env
      = Except.ok
          { state :=
              { s with
                shares :=
                  if cs - shares > 0 then
                    setShares s.shares caller (cs - shares)
                  else delShares s.shares caller
                totalShares := u64sub s.totalShares shares }
            events := ["RedeemExecuted", "Withdraw"]
            transfers :=
              payoutTransfers (u64 (shares * env.wmasBalance) /
                  s.totalShares)
                (u64 (shares * env.wethBalance) / s.totalShares)
                (u64 (shares * env.usdcBalance) / s.totalShares) } := by
    simp only [redeem, hlk, if_neg hns, if_neg hts0]
    rfl
  refine ⟨?_, ?_, bound _, bound _, bound _, exact _, exact _, exact _⟩
  · rw [hred]; rfl
  · rw [hred]; rfl

/-- C5 witness: a concrete in-kind redemption of 40 of 100 shares
against balances (50, 7, 30), where the theorem's hypotheses all hold. -/
theorem c5_redeem_proportional_no_overflow_witness :
    (redeem stateC5w "A" 40 false envC5w).isOk = true ∧
      redeemTransfers (redeem stateC5w "A" 40 false envC5w)
        = payoutTransfers
            (u64 (40 * envC5w.wmasBalance) / stateC5w.totalShares)
            (u64 (40 * envC5w.wethBalance) / stateC5w.totalShares)
            (u64 (40 * envC5w.usdcBalance) / stateC5w.totalShares) ∧
      u64 (40 * envC5w.wmasBalance) / stateC5w.totalShares
          ≤ envC5w.wmasBalance ∧
      u64 (40 * envC5w.wethBalance) / stateC5w.totalShares
          ≤ envC5w.wethBalance ∧
      u64 (40 * envC5w.usdcBalance) / stateC5w.totalShares
          ≤ envC5w.usdcBalance ∧
      (40 * envC5w.wmasBalance < U64MOD →
        u64 (40 * envC5w.wmasBalance) / stateC5w.totalShares
          = 40 * envC5w.wmasBalance / stateC5w.totalShares) ∧
      (40 * envC5w.wethBalance < U64MOD →
        u64 (40 * envC5w.wethBalance) / stateC5w.totalShares
          = 40 * envC5w.wethBalance / stateC5w.totalShares) ∧
      (40 * envC5w.usdcBalance < U64MOD →
        u64 (40 * envC5w.usdcBalance) / stateC5w.totalShares
          = 40 * envC5w.usdcBalance / stateC5w.totalShares) :=
  c5_redeem_proportional_no_overflow stateC5w "A" 40 100 envC5w rfl
    (by decide) (by decide) (by decide)

/-- C7 (amended): `deposit` credits shares only if the reported
post-transfer balance is at least `(balanceBefore + amount) mod 2^64`;
whenever that `u64` sum does not wrap, this is exactly the claimed check:
a successful deposit implies the balance increased by at least `amount`,
and a transfer that moved less than `amount` makes the whole call
revert. -/
theorem c7_deposit_verification_no_overflow (s : VaultState)
    (caller : String) (amount : Nat) (env : DepositEnv)
    (hno : env.balanceBefore + amount < U64MOD) :
    (∀ r, deposit s caller amount env = Except.ok r →
        env.balanceBefore + amount ≤ env.balanceAfter) ∧
      (env.balanceAfter < env.balanceBefore + amount →
        ∃ msg, deposit s caller amount env = Except.error msg) := by
  have hu : u64 (env.balanceBefore + amount)
      = env.balanceBefore + amount := Nat.mod_eq_of_lt hno
  constructor
  · intro r h
    unfold deposit at h
    split at h
    · exact Except.noConfusion h
    · split at h
      · exact Except.noConfusion h
      · split at h
        · exact Except.noConfusion h
        · split at h
          · exact Except.noConfusion h
          · rename_i hguard
            rw [hu] at hguard
            omega
  · intro hlt
    unfold deposit
    split
    · exact ⟨"Contract is paused", rfl⟩
    · split
      · exact ⟨"Reentrancy attempt detected", rfl⟩
      · split
        · exact ⟨"Amount below minimum deposit", rfl⟩
        · split
          · exact ⟨"USDC transfer failed", rfl⟩
          · rename_i hguard
            rw [hu] at hguard
            omega

/-- C7 witness: a concrete deposit of 5 against reported balances 10
before and 3 after — fewer than 5 units moved, so the call reverts. -/
theorem c7_deposit_verification_no_overflow_witness :
    envC7w.balanceBefore + 5 < U64MOD ∧
      envC7w.balanceAfter < envC7w.balanceBefore + 5 ∧
      ∃ msg, deposit stateC7w "A" 5 envC7w = Except.error msg :=
  ⟨by decide, by decide,
    (c7_deposit_verification_no_overflow stateC7w "A" 5 envC7w
        (by decide)).2 (by decide)⟩

/-- C8 (amended): an owner call to `startAutonomousRebalancing` with
zero total shares or with the guard not armed is a graceful no-op: it
returns normally (no revert), emits an `AutonomousStartSkipped` event,
and leaves the state unchanged — no schedule is created and autonomy is
not enabled. -/
theorem c8_start_autonomy_skips_gracefully (s : VaultState) (now : Nat)
    (env : StartEnv) (h : s.totalShares = 0 ∨ s.guardArmed = none) :
    startAutonomousRebalancing s s.owner now env
        = Except.ok (s, ["AutonomousStartSkippedNoDeposits"]) ∨
      startAutonomousRebalancing s s.owner now env
        = Except.ok (s, ["AutonomousStartSkippedGuardOff"]) := by
  unfold startAutonomousRebalancing
  rw [if_pos rfl]
  by_cases h0 : s.totalShares = 0
  · left
    rw [if_pos h0]
  · right
    rcases h with h | h
    · exact absurd h h0
    · rw [if_neg h0, if_pos (by rw [h]; rfl)]

/-- C8 witness: the owner starts autonomy on a funded vault whose guard
is not armed; the call is the guard-off graceful skip. -/
theorem c8_start_autonomy_skips_gracefully_witness :
    (stateC8w.totalShares = 0 ∨ stateC8w.guardArmed = none) ∧
      (startAutonomousRebalancing stateC8w stateC8w.owner 7
            { gasBank := 5, quote := 3 }
          = Except.ok (stateC8w, ["AutonomousStartSkippedNoDeposits"]) ∨
        startAutonomousRebalancing stateC8w stateC8w.owner 7
            { gasBank := 5, quote := 3 }
          = Except.ok (stateC8w, ["AutonomousStartSkippedGuardOff"])) :=
  ⟨Or.inr rfl,
    c8_start_autonomy_skips_gracefully stateC8w 7
      { gasBank := 5, quote := 3 } (Or.inr rfl)⟩

/-- Each sized swap leg never exceeds the full base balance (the
half-balance branch is only taken when the deficit exceeds the whole
balance). -/
theorem legSwapAmount_le (deficit usdc : Nat) :
    legSwapAmount deficit usdc ≤ usdc := by
  unfold legSwapAmount
  split
  · exact Nat.div_le_self usdc 2
  · omega

/-- A leg that fires committed an amount bounded by the base balance. -/
theorem underTargetLegAmount_le {t c v tot u a : Nat}
    (h : underTargetLegAmount t c v tot u = some a) : a ≤ u := by
  simp only [underTargetLegAmount] at h
  split at h
  · split at h
    · rename_i hcond
      injection h with h1
      rw [← h1]
      exact hcond.2
    · exact Option.noConfusion h
  · exact Option.noConfusion h

/-- Every submitted swap comes from one of the two legs. -/
theorem mem_swapsOfLegs {l1 l2 : Option Nat} {sw : Swap}
    (h : sw ∈ swapsOfLegs l1 l2) :
    (∃ a, l1 = some a ∧ sw.amountIn = a) ∨
      (∃ a, l2 = some a ∧ sw.amountIn = a) := by
  cases l1 with
  | none =>
    cases l2 with
    | none => simp [swapsOfLegs] at h
    | some b =>
      right
      refine ⟨b, rfl, ?_⟩
      simp [swapsOfLegs] at h
      rw [h]
  | some a =>
    cases l2 with
    | none =>
      left
      refine ⟨a, rfl, ?_⟩
      simp [swapsOfLegs] at h
      rw [h]
    | some b =>
      simp [swapsOfLegs] at h
      rcases h with h | h
      · exact Or.inl ⟨a, rfl, by rw [h]⟩
      · exact Or.inr ⟨b, rfl, by rw [h]⟩

/-- Every swap submitted by the rebalance executor commits at most the
vault's full USDC balance. -/
theorem executeRebalanceInternal_swaps_le (s : VaultState) (now : Nat)
    (env : RebalEnv) :
    ∀ sw ∈ (executeRebalanceInternal s now env).swaps,
      sw.amountIn ≤ env.usdcBalance := by
  intro sw h
  simp only [executeRebalanceInternal, apply_ite CallOutcome.swaps] at h
  split at h
  · simp at h
  · split at h
    · simp at h
    · rcases mem_swapsOfLegs h with ⟨a, ha, hsw⟩ | ⟨a, ha, hsw⟩
      · rw [hsw]
        simp only [leg1Of] at ha
        exact underTargetLegAmount_le ha
      · rw [hsw]
        simp only [leg2Of] at ha
        exact underTargetLegAmount_le ha

/-- C9 (amended): the base amount committed to a rebalancing swap leg is
the full value deficit whenever that deficit does not exceed the base
asset's balance (so a single leg may commit more than half of it, up to
the whole balance); the half-balance cap applies exactly when the deficit
exceeds the balance.  In all cases the committed amount never exceeds the
base asset's current balance. -/
theorem c9_swap_leg_cap :
    (∀ deficit usdc : Nat,
        legSwapAmount deficit usdc ≤ usdc ∧
          (usdc < deficit → legSwapAmount deficit usdc = usdc / 2) ∧
          (deficit ≤ usdc → legSwapAmount deficit usdc = deficit)) ∧
      ∀ (s : VaultState) (now : Nat) (env : RebalEnv) (sw : Swap),
        sw ∈ (executeRebalanceInternal s now env).swaps →
          sw.amountIn ≤ env.usdcBalance := by
  constructor
  · intro d u
    refine ⟨legSwapAmount_le d u, ?_, ?_⟩
    · intro h
      unfold legSwapAmount
      rw [if_pos h]
    · intro h
      unfold legSwapAmount
      rw [if_neg (by omega)]
  · intro s now env sw h
    exact executeRebalanceInternal_swaps_le s now env sw h

/-- C9 witness: the counterexample scenario's swap is submitted by the
executor and is bounded by the full balance, and a deficit exceeding the
balance is halved. -/
theorem c9_swap_leg_cap_witness :
    ({ tokenIn := "USDC", tokenOut := "WMAS", amountIn := 666600,
        multiHop := false } : Swap)
        ∈ (executeRebalanceInternal stateC9 5000 envC9).swaps ∧
      (666600 : Nat) ≤ envC9.usdcBalance ∧
      (100000 : Nat) < 333300000 ∧
      legSwapAmount 333300000 100000 = 100000 / 2 :=
  ⟨by decide,
    c9_swap_leg_cap.2 stateC9 5000 envC9
      { tokenIn := "USDC", tokenOut := "WMAS", amountIn := 666600,
        multiHop := false } (by decide),
    by decide, (c9_swap_leg_cap.1 333300000 100000).2.1 (by decide)⟩

/-- C10: after any owner-initiated `pause` followed by `unpause`, the
vault still behaves as paused: `unpause` stores the string `"false"`
without deleting the key, while both `isPaused` and `deposit` test key
presence — so `isPaused` returns true and every deposit reverts with the
paused error. -/
theorem c10_pause_unpause_latch (s : VaultState) (caller : String)
    (hc : caller = s.owner) :
    pause s caller
        = Except.ok ({ s with paused := some "true" }, ["ContractPaused"]) ∧
      unpause { s with paused := some "true" } caller
        = Except.ok
            ({ s with paused := some "false" }, ["ContractUnpaused"]) ∧
      isPaused { s with paused := some "false" } = true ∧
      ∀ (c : String) (a : Nat) (env : DepositEnv),
        deposit { s with paused := some "false" } c a env
          = Except.error "Contract is paused" := by
  subst hc
  refine ⟨?_, ?_, rfl, ?_⟩
  · unfold pause
    rw [if_pos rfl]
  · unfold unpause
    rw [if_pos rfl]
  · exact fun c a env => rfl

/-- C10 witness: the latch on a concrete freshly deployed vault,
pause/unpause both called by the owner. -/
theorem c10_pause_unpause_latch_witness :
    "OWN" = stateC10w.owner ∧
      (pause stateC10w "OWN"
          = Except.ok
              ({ stateC10w with paused := some "true" },
                ["ContractPaused"]) ∧
        unpause { stateC10w with paused := some "true" } "OWN"
          = Except.ok
              ({ stateC10w with paused := some "false" },
                ["ContractUnpaused"]) ∧
        isPaused { stateC10w with paused := some "false" } = true ∧
        ∀ (c : String) (a : Nat) (env : DepositEnv),
          deposit { stateC10w with paused := some "false" } c a env
            = Except.error "Contract is paused") :=
  ⟨rfl, c10_pause_unpause_latch stateC10w "OWN" rfl⟩

end SIV
